import Mathlib

set_option maxHeartbeats 1000000

/-!
# Verification of the DCP-130C ARM scan-decode stub

Shallow embedding of `src/DCP-130C/scandec_stubs.c` (the raster decode
engine: PackBits decompression, 8-bit→1-bit quantization, RGB plane
assembly, session geometry) and proofs about it.

Modelling conventions:
* `BYTE` buffers are `List Nat`; a pointer that may be `NULL` is an
  `Option (List Nat)`.  A list models the actual memory a pointer points
  at; declared lengths (`dwLineDataSize`, `dwWriteBuffSize`) are separate
  `Nat` fields exactly as in the C structs, so reads beyond a declared
  length remain observable.
* `DWORD` is `unsigned long` on 32-bit ARM; arithmetic that can wrap is
  taken modulo `W32 = 2^32`.
* `memcpy`/`memset` into a region of a destination buffer is modelled by
  `overlayAt` (writes are clamped to the destination list, matching the
  callers' in-bounds usage); reads of `len` bytes from a buffer by
  `readBytes`.
* Debug-only code (`g_debug`, `g_stats`, timing, logging) has no effect
  on the decode results and is omitted.
-/

/-- The modulus for DWORD (`unsigned long` on 32-bit ARM) arithmetic: 2^32. -/
def W32 : Nat := 4294967296

/-- The C `(signed char)` cast applied to a byte value. -/
def toSigned (b : Nat) : Int :=
  if b % 256 < 128 then (b % 256 : Int) else (b % 256 : Int) - 256

/-- Read `len` bytes starting at the base of a buffer (models a
`memcpy`-source or an indexed read loop; bytes beyond the buffer read 0). -/
def readBytes (mem : List Nat) (len : Nat) : List Nat :=
  (List.range len).map (fun i => mem.getD i 0)

/-- Write `src` into `dst` starting at byte offset `off`
(models `memcpy(dst+off, src, src.length)` / `memset` of a region;
writes outside `dst` are clamped, matching the callers' in-bounds usage). -/
def overlayAt (dst : List Nat) (off : Nat) (src : List Nat) : List Nat :=
  (List.range dst.length).map
    (fun j => if off ≤ j ∧ j < off + src.length then src.getD (j - off) 0 else dst.getD j 0)

/-!
## `decode_packbits`

```c
static DWORD decode_packbits(const BYTE *in, DWORD inLen, BYTE *out, DWORD outMax)
{
    DWORD iP = 0, oP = 0;
    while (iP < inLen && oP < outMax) {
        signed char n = (signed char)in[iP++];
        if (n >= 0) {
            DWORD c = (DWORD)(n + 1);
            if (iP + c > inLen) c = inLen - iP;
            if (oP + c > outMax) c = outMax - oP;
            memcpy(out + oP, in + iP, c);
            iP += c; oP += c;
        } else if (n != -128) {
            DWORD c = (DWORD)(1 - n);
            if (iP >= inLen) break;
            BYTE v = in[iP++];
            if (oP + c > outMax) c = outMax - oP;
            memset(out + oP, v, c);
            oP += c;
        }
        /* n == -128: no-op */
    }
    return oP;
}
```

`pb_go fuel inp cap` returns the list of bytes the loop writes when the
remaining input is `inp` and the remaining output capacity is `cap`.
Each loop iteration consumes at least the control byte, so
`fuel = inp.length` iterations always suffice; the extra fuel argument
only makes the recursion structural.
-/
def pb_go : Nat → List Nat → Nat → List Nat
  | 0, _, _ => []
  | _ + 1, [], _ => []
  | fuel + 1, b :: rest, cap =>
    if cap = 0 then []
    else if 0 ≤ toSigned b then
      -- copy next n+1 bytes literally, clamped to input then to output
      List.take (min (min ((toSigned b).toNat + 1) rest.length) cap) rest ++
        pb_go fuel (List.drop (min (min ((toSigned b).toNat + 1) rest.length) cap) rest)
          (cap - min (min ((toSigned b).toNat + 1) rest.length) cap)
    else if toSigned b = -128 then
      -- no-op
      pb_go fuel rest cap
    else
      match rest with
      | [] => []  -- `if (iP >= inLen) break;`
      | v :: rest2 =>
        -- repeat next byte 1-n times, clamped to output
        List.replicate (min (1 - toSigned b).toNat cap) v ++
          pb_go fuel rest2 (cap - min (1 - toSigned b).toNat cap)

/-- Embedding of `decode_packbits`: the bytes written to `out`; the C return value
`oP` is the length of this list. -/
def decode_packbits (inp : List Nat) (outMax : Nat) : List Nat :=
  pb_go inp.length inp outMax

/-- One iteration of the `gray8_to_1bit` loop body at pixel index `i`. -/
def gray8_step (gray packed : List Nat) (i : Nat) : List Nat :=
  if 128 ≤ gray.getD i 0 then
    packed.set (i / 8) ((packed.getD (i / 8) 0) ||| (128 >>> (i % 8)))
  else packed

/-- The `gray8_to_1bit` loop, running `k` iterations starting at index `i`. -/
def gray8_loop (gray : List Nat) : Nat → Nat → List Nat → List Nat
  | _, 0, packed => packed
  | i, k + 1, packed => gray8_loop gray (i + 1) k (gray8_step gray packed i)

/-- Embedding of `gray8_to_1bit`: the contents of `packed` after the call. -/
def gray8_to_1bit (gray : List Nat) (nPixels packedSize : Nat) : List Nat :=
  gray8_loop gray 0 nPixels (List.replicate packedSize 0)

/-- Bit at logical pixel position `i` of a packed 1-bit line, MSB-first
within each byte: bit `i % 8` (counted from the MSB) of byte `i / 8`. -/
def getBit (packed : List Nat) (i : Nat) : Bool :=
  (packed.getD (i / 8) 0).testBit (7 - i % 8)

/-- C struct `SCANDEC_OPEN` (resolution fields and `nOutDataKind` are
informational pass-through, unused by the decode arithmetic). -/
structure SCANDEC_OPEN where
  nInResoX : Int := 0
  nInResoY : Int := 0
  nOutResoX : Int := 0
  nOutResoY : Int := 0
  nColorType : Nat := 0
  dwInLinePixCnt : Nat := 0
  nOutDataKind : Int := 0
  bLongBoundary : Bool := false
  dwOutLinePixCnt : Nat := 0
  dwOutLineByte : Nat := 0
  dwOutWriteMaxSize : Nat := 0
deriving DecidableEq

/-- C struct `SCANDEC_WRITE`.  `pLineData`/`pWriteBuff` model the pointed-to
memory (`none` = NULL); the `dw…Size` fields are the caller-declared sizes. -/
structure SCANDEC_WRITE where
  nInDataComp : Int := 0
  nInDataKind : Int := 0
  pLineData : Option (List Nat) := none
  dwLineDataSize : Nat := 0
  pWriteBuff : Option (List Nat) := none
  dwWriteBuffSize : Nat := 0
  bReverWrite : Bool := false
deriving DecidableEq

/-- The mutable globals of `scandec_stubs.c` that carry one session. -/
structure ScanState where
  g_open : SCANDEC_OPEN := {}
  g_bpp : Nat := 0
  g_red_plane : Option (List Nat) := none
  g_green_plane : Option (List Nat) := none
  g_blue_plane : Option (List Nat) := none
  g_plane_pixels : Nat := 0
  g_have_red : Bool := false
  g_have_green : Bool := false
deriving DecidableEq

/-- The all-zero initial state of the C globals. -/
def initState : ScanState := {}

/-- The C expression `(x + 3) & ~3UL` on a 32-bit DWORD: round up to the next multiple of 4
(the `& ~3` clears the two low bits, i.e. subtracts the remainder mod 4). -/
def align4 (x : Nat) : Nat :=
  (x + 3) % W32 - ((x + 3) % W32) % 4

/-- Result of `ScanDecOpen`: the updated globals, the struct as written
back through the caller's pointer, and the `BOOL` return. -/
structure OpenResult where
  state : ScanState
  cfg : Option SCANDEC_OPEN
  ok : Bool
deriving DecidableEq

/-- Embedding of `ScanDecOpen` (lines 214–284 of `scandec_stubs.c`).  The statistics
reset and debug print are omitted; `allocOk` models whether the three
`calloc` calls for the RGB planes succeed. -/
def ScanDecOpen (pIn : Option SCANDEC_OPEN) (allocOk : Bool) (s : ScanState) : OpenResult :=
  match pIn with
  | none => { state := s, cfg := none, ok := false }
  | some p0 =>
    let p1 := { p0 with dwOutLinePixCnt := p0.dwInLinePixCnt % W32 }
    let bpp : Nat :=
      if p1.nColorType &&& 0x400 ≠ 0 then 3
      else if p1.nColorType &&& 0x200 ≠ 0 then 1
      else 0
    let lineByte0 : Nat :=
      if p1.nColorType &&& 0x400 ≠ 0 then p1.dwOutLinePixCnt * 3 % W32
      else if p1.nColorType &&& 0x200 ≠ 0 then p1.dwOutLinePixCnt
      else (p1.dwOutLinePixCnt + 7) % W32 / 8
    let lineByte := if p1.bLongBoundary then align4 lineByte0 else lineByte0
    let p2 := { p1 with dwOutLineByte := lineByte, dwOutWriteMaxSize := lineByte * 16 % W32 }
    let s1 : ScanState :=
      { s with
          g_open := p2
          g_bpp := bpp
          g_red_plane := none
          g_green_plane := none
          g_blue_plane := none
          g_have_red := false
          g_have_green := false }
    if bpp = 3 then
      let pp := p2.dwInLinePixCnt % W32
      if allocOk then
        let s2 : ScanState :=
          { s1 with
              g_plane_pixels := pp
              g_red_plane := some (List.replicate pp 0)
              g_green_plane := some (List.replicate pp 0)
              g_blue_plane := some (List.replicate pp 0) }
        { state := s2, cfg := some p2, ok := true }
      else
        { state := { s1 with g_plane_pixels := pp }, cfg := some p2, ok := false }
    else
      { state := s1, cfg := some p2, ok := true }

/-!
## `ScanDecWrite`

Split into the RGB plane branch (lines 337–420) and the grayscale/B&W
branch (lines 422–516) of `scandec_stubs.c`; the top-level function does
the NULL checks and the `outLine` guard (lines 303–311).
-/

/-- The interleave loop (lines 387–391): bytes `3i`, `3i+1`, `3i+2` of the
written region hold `R[i]`, `G[i]`, `B[i]` for `i < n`. -/
def interleave3 (r g b : List Nat) (n : Nat) : List Nat :=
  (List.range (3 * n)).map
    (fun j => if j % 3 = 0 then r.getD (j / 3) 0
              else if j % 3 = 1 then g.getD (j / 3) 0
              else b.getD (j / 3) 0)

/-- The RGB-branch `switch (w->nInDataComp)` (lines 349–375): the contents
of the selected plane buffer after decode.  `pp = g_plane_pixels`,
`mem`/`size` are `pLineData`/`dwLineDataSize`. -/
def rgb_decode_plane (planeBuf : List Nat) (pp : Nat) (comp : Int)
    (mem : List Nat) (size : Nat) : List Nat :=
  if comp = 1 then
    -- SCIDC_WHITE: memset(planeBuf, 0xFF, g_plane_pixels)
    overlayAt planeBuf 0 (List.replicate pp 255)
  else if comp = 2 then
    -- SCIDC_NONCOMP: clamped copy, then zero the tail
    let afterCopy := overlayAt planeBuf 0 (readBytes mem (min size pp))
    if min size pp < pp then
      overlayAt afterCopy (min size pp) (List.replicate (pp - min size pp) 0)
    else afterCopy
  else if comp = 3 then
    -- SCIDC_PACK
    overlayAt planeBuf 0 (decode_packbits (readBytes mem size) pp)
  else
    -- unknown: clamped copy, no tail fill
    overlayAt planeBuf 0 (readBytes mem (min size pp))

/-- Result of `ScanDecWrite`: updated globals, the contents of the
caller's destination buffer, the `DWORD` return and `*st`. -/
structure WriteResult where
  state : ScanState
  dest : Option (List Nat)
  ret : Nat
  status : Int
deriving DecidableEq

/-- The plane-select `switch (w->nInDataKind)` of the RGB branch
(lines 342–347): stores the decoded plane and raises the matching
row flag (kind 2 = Red, 3 = Green, default = Blue). -/
def rgb_select_state (s : ScanState) (kind : Int)
    (redD greenD blueD : List Nat) : ScanState :=
  if kind = 2 then { s with g_red_plane := some redD, g_have_red := true }
  else if kind = 3 then { s with g_green_plane := some greenD, g_have_green := true }
  else { s with g_blue_plane := some blueD }

/-- The 24-bit RGB plane branch of `ScanDecWrite` (lines 337–420),
entered with `g_bpp == 3`, all three plane pointers non-NULL and
`2 ≤ nInDataKind ≤ 4`. -/
def ScanDecWrite_rgb (s : ScanState) (w : SCANDEC_WRITE) (mem dest : List Nat)
    (red green blue : List Nat) (outLine : Nat) : WriteResult :=
  let redD := rgb_decode_plane red s.g_plane_pixels w.nInDataComp mem w.dwLineDataSize
  let greenD := rgb_decode_plane green s.g_plane_pixels w.nInDataComp mem w.dwLineDataSize
  let blueD := rgb_decode_plane blue s.g_plane_pixels w.nInDataComp mem w.dwLineDataSize
  let s1 : ScanState := rgb_select_state s w.nInDataKind redD greenD blueD
  if w.nInDataKind ≠ 4 ∨ s1.g_have_red = false ∨ s1.g_have_green = false then
    -- buffer only (lines 378–381)
    { state := s1, dest := some dest, ret := 0, status := 0 }
  else
    -- all three planes received — interleave (lines 383–394)
    let safe_pixels := min s.g_plane_pixels (outLine / 3)
    let dest0 := overlayAt dest 0 (List.replicate outLine 0)
    let dest1 := overlayAt dest0 0 (interleave3 red green blueD safe_pixels)
    { state := { s1 with g_have_red := false, g_have_green := false },
      dest := some dest1, ret := outLine, status := 1 }

/-- The grayscale/B&W branch of `ScanDecWrite` (lines 422–516): contents
of the destination buffer after the call.  The `malloc(pixelsPerLine)`
scratch buffer of the mono PackBits path is modelled as a zero list (its
tail beyond the decoded prefix is indeterminate in C; no theorem below
depends on it), and the allocation is assumed to succeed. -/
def gray_decode_line (dest : List Nat) (outLine bpp pixelsPerLine : Nat)
    (comp : Int) (mem : List Nat) (size : Nat) : List Nat :=
  let dest0 := overlayAt dest 0 (List.replicate outLine 0)  -- memset(pWriteBuff, 0, outLine)
  if comp = 1 then
    -- SCIDC_WHITE: both arms are memset(pWriteBuff, 0xFF, outLine)
    overlayAt dest0 0 (List.replicate outLine 255)
  else if comp = 2 then
    if bpp = 0 then
      -- B&W: gray8_to_1bit(w->pLineData, pixelsPerLine, w->pWriteBuff, outLine)
      -- NOTE: reads `pixelsPerLine` input bytes, not `dwLineDataSize`
      overlayAt dest0 0 (gray8_to_1bit mem pixelsPerLine outLine)
    else
      overlayAt dest0 0 (readBytes mem (min size outLine))
  else if comp = 3 then
    if bpp = 0 then
      overlayAt dest0 0
        (gray8_to_1bit
          (overlayAt (List.replicate pixelsPerLine 0) 0
            (decode_packbits (readBytes mem size) pixelsPerLine))
          pixelsPerLine outLine)
    else
      overlayAt dest0 0 (decode_packbits (readBytes mem size) outLine)
  else
    overlayAt dest0 0 (readBytes mem (min size outLine))

/-- Embedding of `ScanDecWrite` (lines 297–517); debug statistics omitted.  `*st` is
modelled as always present. -/
def ScanDecWrite (wIn : Option SCANDEC_WRITE) (s : ScanState) : WriteResult :=
  match wIn with
  | none => { state := s, dest := none, ret := 0, status := -1 }
  | some w =>
    match w.pLineData, w.pWriteBuff with
    | none, d => { state := s, dest := d, ret := 0, status := -1 }
    | some _, none => { state := s, dest := none, ret := 0, status := -1 }
    | some mem, some dest =>
      let outLine := s.g_open.dwOutLineByte
      if outLine = 0 ∨ outLine > w.dwWriteBuffSize then
        { state := s, dest := some dest, ret := 0, status := 0 }
      else
        if s.g_bpp = 3 ∧ s.g_red_plane.isSome ∧ s.g_green_plane.isSome
            ∧ s.g_blue_plane.isSome ∧ 2 ≤ w.nInDataKind ∧ w.nInDataKind ≤ 4 then
          ScanDecWrite_rgb s w mem dest
            (s.g_red_plane.getD []) (s.g_green_plane.getD []) (s.g_blue_plane.getD [])
            outLine
        else
          { state := s,
            dest := some (gray_decode_line dest outLine s.g_bpp s.g_open.dwOutLinePixCnt
              w.nInDataComp mem w.dwLineDataSize),
            ret := outLine, status := 1 }

/-- Embedding of `ScanDecClose` (lines 536–669): clears all globals, always TRUE. -/
def ScanDecClose (_ : ScanState) : ScanState × Bool :=
  ({}, true)

/-- Embedding of `ScanDecPageEnd` (lines 519–534): writes `*st` 0, returns 0. -/
def ScanDecPageEnd (_ : Option SCANDEC_WRITE) (_ : ScanState) : Nat × Int :=
  (0, 0)

theorem pb_go_length_le : ∀ (fuel : Nat) (inp : List Nat) (cap : Nat),
    (pb_go fuel inp cap).length ≤ cap := by
  intro fuel
  induction fuel with
  | zero => intro inp cap; simp [pb_go]
  | succ fuel ih =>
    intro inp cap
    match inp with
    | [] => simp [pb_go]
    | b :: rest =>
      by_cases hcap : cap = 0
      · simp [pb_go, hcap]
      · by_cases hpos : 0 ≤ toSigned b
        · have hc : min (min ((toSigned b).toNat + 1) rest.length) cap ≤ cap :=
            Nat.min_le_right _ _
          calc (pb_go (fuel+1) (b :: rest) cap).length
              = (List.take (min (min ((toSigned b).toNat + 1) rest.length) cap) rest).length
                + (pb_go fuel (List.drop (min (min ((toSigned b).toNat + 1) rest.length) cap) rest)
                    (cap - min (min ((toSigned b).toNat + 1) rest.length) cap)).length := by
                simp [pb_go, hcap, hpos]
            _ ≤ min (min ((toSigned b).toNat + 1) rest.length) cap
                + (cap - min (min ((toSigned b).toNat + 1) rest.length) cap) := by
                have := ih (List.drop (min (min ((toSigned b).toNat + 1) rest.length) cap) rest)
                  (cap - min (min ((toSigned b).toNat + 1) rest.length) cap)
                have hlt : (List.take (min (min ((toSigned b).toNat + 1) rest.length) cap) rest).length
                    ≤ min (min ((toSigned b).toNat + 1) rest.length) cap := by
                  simp [List.length_take]
                omega
            _ = cap := by omega
        · by_cases hneg : toSigned b = -128
          · simpa [pb_go, hcap, hpos, hneg] using ih rest cap
          · match rest with
            | [] => simp [pb_go, hcap, hpos, hneg]
            | v :: rest2 =>
              have hc : min (1 - toSigned b).toNat cap ≤ cap := Nat.min_le_right _ _
              calc (pb_go (fuel+1) (b :: v :: rest2) cap).length
                  = (List.replicate (min (1 - toSigned b).toNat cap) v).length
                    + (pb_go fuel rest2 (cap - min (1 - toSigned b).toNat cap)).length := by
                    simp [pb_go, hcap, hpos, hneg]
                _ ≤ min (1 - toSigned b).toNat cap
                    + (cap - min (1 - toSigned b).toNat cap) := by
                    have := ih rest2 (cap - min (1 - toSigned b).toNat cap)
                    simp only [List.length_replicate]
                    omega
                _ = cap := by omega

theorem gray8_step_length (gray packed : List Nat) (i : Nat) :
    (gray8_step gray packed i).length = packed.length := by
  unfold gray8_step; split <;> simp

theorem gray8_loop_length (gray : List Nat) :
    ∀ (k i : Nat) (packed : List Nat),
      (gray8_loop gray i k packed).length = packed.length := by
  intro k
  induction k with
  | zero => intro i packed; rfl
  | succ k ih =>
    intro i packed
    show (gray8_loop gray (i + 1) k (gray8_step gray packed i)).length = _
    rw [ih, gray8_step_length]

theorem shiftRight_128_eq (s : Nat) (hs : s < 8) : 128 >>> s = 2 ^ (7 - s) := by
  interval_cases s <;> rfl

theorem getBit_gray8_step (gray packed : List Nat) (i m : Nat) :
    getBit (gray8_step gray packed i) m = true ↔
      getBit packed m = true ∨
        (m = i ∧ i / 8 < packed.length ∧ 128 ≤ gray.getD i 0) := by
  unfold gray8_step
  by_cases hg : 128 ≤ gray.getD i 0
  · simp only [if_pos hg]
    by_cases hlen : i / 8 < packed.length
    · by_cases hdiv : m / 8 = i / 8
      · unfold getBit
        rw [hdiv]
        rw [show ((packed.set (i / 8) ((packed.getD (i / 8) 0) ||| (128 >>> (i % 8)))).getD (i / 8) 0)
              = (packed.getD (i / 8) 0) ||| (128 >>> (i % 8)) by
          simp [List.getD_eq_getElem?_getD, List.getElem?_set, hlen]]
        rw [Nat.testBit_lor]
        rw [shiftRight_128_eq (i % 8) (Nat.mod_lt _ (by norm_num))]
        rw [Nat.testBit_two_pow]
        constructor
        · intro h
          rcases Bool.or_eq_true_iff.mp h with h1 | h1
          · exact Or.inl h1
          · right
            have h2 : 7 - i % 8 = 7 - m % 8 := of_decide_eq_true h1
            have him : i % 8 < 8 := Nat.mod_lt _ (by norm_num)
            have hmm : m % 8 < 8 := Nat.mod_lt _ (by norm_num)
            have hmod : m % 8 = i % 8 := by omega
            have : m = i := by
              have h3 := Nat.div_add_mod m 8
              have h4 := Nat.div_add_mod i 8
              omega
            exact ⟨this, hlen, hg⟩
        · intro h
          rcases h with h1 | ⟨h1, _, _⟩
          · exact Bool.or_eq_true_iff.mpr (Or.inl h1)
          · apply Bool.or_eq_true_iff.mpr
            right
            subst h1
            simp
      · unfold getBit
        rw [show ((packed.set (i / 8) ((packed.getD (i / 8) 0) ||| (128 >>> (i % 8)))).getD (m / 8) 0)
              = packed.getD (m / 8) 0 by
          simp [List.getD_eq_getElem?_getD, List.getElem?_set, Ne.symm hdiv]]
        constructor
        · intro h; exact Or.inl h
        · intro h
          rcases h with h1 | ⟨h1, _, _⟩
          · exact h1
          · exact absurd (by rw [h1]) hdiv
    · rw [List.set_eq_of_length_le (by omega)]
      constructor
      · intro h; exact Or.inl h
      · intro h
        rcases h with h1 | ⟨_, h2, _⟩
        · exact h1
        · exact absurd h2 hlen
  · simp only [if_neg hg]
    constructor
    · intro h; exact Or.inl h
    · intro h
      rcases h with h1 | ⟨_, _, h3⟩
      · exact h1
      · exact absurd h3 hg

theorem getBit_gray8_loop (gray : List Nat) (m : Nat) :
    ∀ (k i : Nat) (packed : List Nat),
      getBit (gray8_loop gray i k packed) m = true ↔
        getBit packed m = true ∨
          (i ≤ m ∧ m < i + k ∧ m / 8 < packed.length ∧ 128 ≤ gray.getD m 0) := by
  intro k
  induction k with
  | zero =>
    intro i packed
    constructor
    · intro h; exact Or.inl h
    · intro h
      rcases h with h1 | ⟨h1, h2, _⟩
      · exact h1
      · omega
  | succ k ih =>
    intro i packed
    show getBit (gray8_loop gray (i + 1) k (gray8_step gray packed i)) m = true ↔ _
    rw [ih (i + 1) (gray8_step gray packed i), getBit_gray8_step,
      gray8_step_length]
    constructor
    · intro h
      rcases h with (h1 | ⟨h1, h2, h3⟩) | ⟨h1, h2, h3, h4⟩
      · exact Or.inl h1
      · subst h1; exact Or.inr ⟨Nat.le_refl _, by omega, h2, h3⟩
      · exact Or.inr ⟨by omega, by omega, h3, h4⟩
    · intro h
      rcases h with h1 | ⟨h1, h2, h3, h4⟩
      · exact Or.inl (Or.inl h1)
      · by_cases hmi : m = i
        · subst hmi; exact Or.inl (Or.inr ⟨rfl, h3, h4⟩)
        · exact Or.inr ⟨by omega, by omega, h3, h4⟩

theorem gray8_to_1bit_length (gray : List Nat) (n size : Nat) :
    (gray8_to_1bit gray n size).length = size := by
  unfold gray8_to_1bit
  rw [gray8_loop_length, List.length_replicate]

theorem getBit_gray8_to_1bit (gray : List Nat) (n size m : Nat) :
    getBit (gray8_to_1bit gray n size) m = true ↔
      (m < n ∧ m / 8 < size ∧ 128 ≤ gray.getD m 0) := by
  unfold gray8_to_1bit
  rw [getBit_gray8_loop]
  have hz : getBit (List.replicate size 0) m = false := by
    unfold getBit
    have h0 : (List.replicate size 0).getD (m / 8) 0 = 0 := by
      by_cases h : m / 8 < size
      · simp [List.getD_eq_getElem?_getD, List.getElem?_replicate, h]
      · rw [List.getD_eq_default]
        simpa using not_lt.mp h
    rw [h0]
    exact Nat.zero_testBit _
  rw [hz]
  simp only [List.length_replicate, Bool.false_eq_true, false_or]
  constructor
  · intro h; exact ⟨by omega, h.2.2.1, h.2.2.2⟩
  · intro h; exact ⟨by omega, by omega, h.2.1, h.2.2⟩

/-!
## Session state and `ScanDecOpen`

The C globals `g_open`, `g_bpp`, the three plane buffers, `g_plane_pixels`
and the two row flags form the session state.  `calloc` results are
zero-filled lists; a failed allocation is modelled by the `allocOk`
parameter of `ScanDecOpen` (the only fallible allocation whose failure
is visible in a result).  Color-type masks: `SC_2BIT = 0x100`,
`SC_8BIT = 0x200`, `SC_24BIT = 0x400`.
-/

/-!
## Helper lemmas about the buffer primitives
-/

theorem getD_map_range (f : Nat → Nat) (n j : Nat) :
    ((List.range n).map f).getD j 0 = if j < n then f j else 0 := by
  by_cases h : j < n
  · simp [List.getD_eq_getElem?_getD, List.getElem?_map, List.getElem?_range, h]
  · rw [List.getD_eq_default, if_neg h]
    simpa using not_lt.mp h

theorem length_overlayAt (dst : List Nat) (off : Nat) (src : List Nat) :
    (overlayAt dst off src).length = dst.length := by
  simp [overlayAt]

theorem getD_overlayAt (dst : List Nat) (off : Nat) (src : List Nat) (j : Nat)
    (hj : j < dst.length) :
    (overlayAt dst off src).getD j 0 =
      if off ≤ j ∧ j < off + src.length then src.getD (j - off) 0 else dst.getD j 0 := by
  unfold overlayAt
  rw [getD_map_range, if_pos hj]

theorem length_readBytes (mem : List Nat) (len : Nat) :
    (readBytes mem len).length = len := by
  simp [readBytes]

theorem getD_readBytes (mem : List Nat) (len j : Nat) :
    (readBytes mem len).getD j 0 = if j < len then mem.getD j 0 else 0 := by
  unfold readBytes
  exact getD_map_range _ len j

theorem length_interleave3 (r g b : List Nat) (n : Nat) :
    (interleave3 r g b n).length = 3 * n := by
  simp [interleave3]

theorem getD_interleave3 (r g b : List Nat) (n i : Nat) (hi : i < n) :
    (interleave3 r g b n).getD (3 * i) 0 = r.getD i 0 ∧
    (interleave3 r g b n).getD (3 * i + 1) 0 = g.getD i 0 ∧
    (interleave3 r g b n).getD (3 * i + 2) 0 = b.getD i 0 := by
  unfold interleave3
  refine ⟨?_, ?_, ?_⟩ <;> rw [getD_map_range]
  · rw [if_pos (by omega)]
    have h1 : 3 * i % 3 = 0 := by omega
    have h2 : 3 * i / 3 = i := by omega
    rw [if_pos h1, h2]
  · rw [if_pos (by omega)]
    have h1 : (3 * i + 1) % 3 = 1 := by omega
    have h2 : (3 * i + 1) / 3 = i := by omega
    rw [if_neg (by omega), if_pos h1, h2]
  · rw [if_pos (by omega)]
    have h1 : (3 * i + 2) % 3 = 2 := by omega
    have h2 : (3 * i + 2) / 3 = i := by omega
    rw [if_neg (by omega), if_neg (by omega), h2]

/-!
## PackBits step semantics
-/

theorem pb_go_nil (fuel cap : Nat) : pb_go fuel [] cap = [] := by
  cases fuel <;> rfl

theorem pb_go_fuel_irrel : ∀ (n : Nat) (inp : List Nat) (fuel fuel' cap : Nat),
    inp.length ≤ n → inp.length ≤ fuel → inp.length ≤ fuel' →
    pb_go fuel inp cap = pb_go fuel' inp cap := by
  intro n
  induction n with
  | zero =>
    intro inp fuel fuel' cap hn _ _
    have : inp = [] := List.length_eq_zero.mp (Nat.le_zero.mp hn)
    subst this
    rw [pb_go_nil, pb_go_nil]
  | succ n ih =>
    intro inp fuel fuel' cap hn hf hf'
    match inp with
    | [] => rw [pb_go_nil, pb_go_nil]
    | b :: rest =>
      have h1 : 1 ≤ fuel := le_trans (by simp) hf
      have h1' : 1 ≤ fuel' := le_trans (by simp) hf'
      obtain ⟨f, rfl⟩ : ∃ f, fuel = f + 1 := ⟨fuel - 1, by omega⟩
      obtain ⟨f', rfl⟩ : ∃ f', fuel' = f' + 1 := ⟨fuel' - 1, by omega⟩
      have hr : rest.length ≤ n := by
        have := hn; simp only [List.length_cons] at this; omega
      have hrf : rest.length ≤ f := by
        simp only [List.length_cons] at hf; omega
      have hrf' : rest.length ≤ f' := by
        simp only [List.length_cons] at hf'; omega
      show pb_go (f + 1) (b :: rest) cap = pb_go (f' + 1) (b :: rest) cap
      by_cases hcap : cap = 0
      · simp [pb_go, hcap]
      · by_cases hpos : 0 ≤ toSigned b
        · simp only [pb_go, if_neg hcap, if_pos hpos]
          congr 1
          exact ih _ f f' _
            (le_trans (by simpa using List.length_drop_le _ _) hr)
            (le_trans (by simpa using List.length_drop_le _ _) hrf)
            (le_trans (by simpa using List.length_drop_le _ _) hrf')
        · by_cases hneg : toSigned b = -128
          · simp only [pb_go, if_neg hcap, if_neg hpos, if_pos hneg]
            exact ih rest f f' cap hr hrf hrf'
          · match rest with
            | [] => simp [pb_go, hcap, hpos, hneg]
            | v :: rest2 =>
              simp only [pb_go, if_neg hcap, if_neg hpos, if_neg hneg]
              congr 1
              exact ih rest2 f f' _
                (by simp only [List.length_cons] at hr; omega)
                (by simp only [List.length_cons] at hrf; omega)
                (by simp only [List.length_cons] at hrf'; omega)

/-- A literal run: control byte `n ∈ [0,127]` copies the next `n+1` bytes,
clamped to the remaining input and then to the remaining capacity. -/
theorem decode_packbits_literal (n : Nat) (rest : List Nat) (cap : Nat)
    (hn : n ≤ 127) (hcap : 0 < cap) :
    decode_packbits (n :: rest) cap =
      List.take (min (min (n + 1) rest.length) cap) rest ++
        decode_packbits (List.drop (min (min (n + 1) rest.length) cap) rest)
          (cap - min (min (n + 1) rest.length) cap) := by
  have hsig : toSigned n = (n : Int) := by
    unfold toSigned
    rw [if_pos (show n % 256 < 128 by omega)]
    omega
  have hpos : 0 ≤ toSigned n := by rw [hsig]; exact Int.ofNat_nonneg n
  have htn : (toSigned n).toNat = n := by rw [hsig]; rfl
  show pb_go (rest.length + 1) (n :: rest) cap = _
  simp only [pb_go, if_neg (Nat.pos_iff_ne_zero.mp hcap), if_pos hpos, htn]
  congr 1
  exact pb_go_fuel_irrel rest.length _ _ _ _
    (by simpa using List.length_drop_le _ _)
    (by simpa using List.length_drop_le _ _)
    (le_refl _)

/-- A repeat run: control byte `b ∈ [129,255]` (signed value `b − 256 ∈
[−127,−1]`) repeats the next byte `1 − (b − 256) = 257 − b` times, clamped
to the remaining capacity. -/
theorem decode_packbits_run (b v : Nat) (rest : List Nat) (cap : Nat)
    (hb1 : 129 ≤ b) (hb2 : b ≤ 255) (hcap : 0 < cap) :
    decode_packbits (b :: v :: rest) cap =
      List.replicate (min (257 - b) cap) v ++
        decode_packbits rest (cap - min (257 - b) cap) := by
    have hsig : toSigned b = (b : Int) - 256 := by
      unfold toSigned
      rw [if_neg (show ¬ b % 256 < 128 by omega)]
      omega
    have hpos : ¬ 0 ≤ toSigned b := by rw [hsig]; omega
    have hneg : toSigned b ≠ -128 := by rw [hsig]; omega
    have htn : (1 - toSigned b).toNat = 257 - b := by
      rw [hsig]; omega
    show pb_go (rest.length + 2) (b :: v :: rest) cap = _
    simp only [pb_go, if_neg (Nat.pos_iff_ne_zero.mp hcap), if_neg hpos, if_neg hneg, htn]
    congr 1
    exact pb_go_fuel_irrel (rest.length + 1) _ _ _ _
      (by omega) (by omega) (le_refl _)

/-- Control byte `0x80` (signed −128) is a no-op. -/
theorem decode_packbits_noop (rest : List Nat) (cap : Nat) (hcap : 0 < cap) :
    decode_packbits (128 :: rest) cap = decode_packbits rest cap := by
  have hsig : toSigned 128 = -128 := by decide
  have hpos : ¬ 0 ≤ toSigned 128 := by decide
  show pb_go (rest.length + 1) (128 :: rest) cap = _
  simp only [pb_go, if_neg (Nat.pos_iff_ne_zero.mp hcap), if_neg hpos, if_pos hsig]
  exact pb_go_fuel_irrel rest.length _ _ _ _ (le_refl _) (le_refl _) (le_refl _)

/-!
## Claim theorems
-/

/-- C1: `decode_packbits` implements TIFF PackBits: a nonnegative control
byte `n ≤ 127` copies the next `n+1` bytes literally (clamped to the
remaining input, then to the remaining capacity), a control byte with
signed value in `[-127,-1]` repeats the next byte `1 − signed` times
(clamped to the remaining capacity, stopping if the input is exhausted),
`-128` is a no-op; it never writes more than the destination capacity
(the returned byte count is the length of the written list), and on input
`[2, 0xAA, 0xBB, 0xCC, 0xFE, 0x11]` with capacity 10 it writes exactly
`[0xAA, 0xBB, 0xCC, 0x11, 0x11, 0x11]`. -/
theorem C1_decode_packbits_packbits_semantics :
    (∀ (inp : List Nat) (outMax : Nat), (decode_packbits inp outMax).length ≤ outMax) ∧
    (∀ (n : Nat) (rest : List Nat) (cap : Nat), n ≤ 127 → 0 < cap →
      decode_packbits (n :: rest) cap =
        List.take (min (min (n + 1) rest.length) cap) rest ++
          decode_packbits (List.drop (min (min (n + 1) rest.length) cap) rest)
            (cap - min (min (n + 1) rest.length) cap)) ∧
    (∀ (b v : Nat) (rest : List Nat) (cap : Nat), 129 ≤ b → b ≤ 255 → 0 < cap →
      decode_packbits (b :: v :: rest) cap =
        List.replicate (min (257 - b) cap) v ++
          decode_packbits rest (cap - min (257 - b) cap)) ∧
    (∀ (rest : List Nat) (cap : Nat), 0 < cap →
      decode_packbits (128 :: rest) cap = decode_packbits rest cap) ∧
    decode_packbits [2, 0xAA, 0xBB, 0xCC, 0xFE, 0x11] 10
      = [0xAA, 0xBB, 0xCC, 0x11, 0x11, 0x11] :=
  ⟨fun inp outMax => pb_go_length_le inp.length inp outMax,
   decode_packbits_literal,
   decode_packbits_run,
   decode_packbits_noop,
   by decide⟩

/-- Witness for C1 at concrete inputs: the literal-, repeat- and no-op
step equations and the capacity bound, evaluated at explicit data. -/
theorem C1_decode_packbits_packbits_semantics_witness :
    (decode_packbits [7, 9] 10).length ≤ 10 ∧
    decode_packbits [2, 5, 6, 7] 10 =
      List.take (min (min 3 3) 10) [5, 6, 7] ++
        decode_packbits (List.drop (min (min 3 3) 10) [5, 6, 7]) (10 - min (min 3 3) 10) ∧
    decode_packbits [254, 17, 3] 10 =
      List.replicate (min 3 10) 17 ++ decode_packbits [3] (10 - min 3 10) ∧
    decode_packbits [128, 0, 9] 4 = decode_packbits [0, 9] 4 :=
  ⟨C1_decode_packbits_packbits_semantics.1 [7, 9] 10,
   C1_decode_packbits_packbits_semantics.2.1 2 [5, 6, 7] 10 (by decide) (by decide),
   C1_decode_packbits_packbits_semantics.2.2.1 254 17 [3] 10 (by decide) (by decide) (by decide),
   C1_decode_packbits_packbits_semantics.2.2.2.1 [0, 9] 4 (by decide)⟩

/-- C2: for `N > 0` and any `N` 8-bit samples, `gray8_to_1bit` run with the
packed size `⌈N/8⌉` it is given by the caller produces exactly `⌈N/8⌉`
bytes; MSB-first, bit `i mod 8` of byte `i / 8` is 1 iff `sample[i] ≥ 128`;
every padding bit at index `≥ N` is 0; and on samples
`[0,255,200,10,130,127,128,5]` (`N = 8`) the single output byte is `0x6A`. -/
theorem C2_gray8_to_1bit_quantizer (N : Nat) (gray : List Nat)
    (hN : 0 < N) (hlen : gray.length = N) :
    (gray8_to_1bit gray N ((N + 7) / 8)).length = (N + 7) / 8 ∧
    (∀ i, i < N →
      (getBit (gray8_to_1bit gray N ((N + 7) / 8)) i = true ↔ 128 ≤ gray.getD i 0)) ∧
    (∀ i, N ≤ i → getBit (gray8_to_1bit gray N ((N + 7) / 8)) i = false) ∧
    gray8_to_1bit [0, 255, 200, 10, 130, 127, 128, 5] 8 ((8 + 7) / 8) = [0x6A] := by
  refine ⟨gray8_to_1bit_length _ _ _, ?_, ?_, by decide⟩
  · intro i hi
    rw [getBit_gray8_to_1bit]
    constructor
    · intro h; exact h.2.2
    · intro h; exact ⟨hi, by omega, h⟩
  · intro i hi
    cases h : getBit (gray8_to_1bit gray N ((N + 7) / 8)) i with
    | false => rfl
    | true =>
      have := (getBit_gray8_to_1bit gray N ((N + 7) / 8) i).mp h
      omega

/-- Witness for C2 at `N = 8`, samples `[0,255,200,10,130,127,128,5]`. -/
theorem C2_gray8_to_1bit_quantizer_witness :
    (gray8_to_1bit [0, 255, 200, 10, 130, 127, 128, 5] 8 ((8 + 7) / 8)).length = (8 + 7) / 8 ∧
    (getBit (gray8_to_1bit [0, 255, 200, 10, 130, 127, 128, 5] 8 ((8 + 7) / 8)) 1 = true ↔
      128 ≤ ([0, 255, 200, 10, 130, 127, 128, 5] : List Nat).getD 1 0) :=
  ⟨(C2_gray8_to_1bit_quantizer 8 [0, 255, 200, 10, 130, 127, 128, 5]
      (by decide) (by decide)).1,
   (C2_gray8_to_1bit_quantizer 8 [0, 255, 200, 10, 130, 127, 128, 5]
      (by decide) (by decide)).2.1 1 (by decide)⟩

/-- The struct written back by a (non-NULL) `ScanDecOpen` call, as a
closed form: identical in all allocation/mode branches. -/
theorem scanDecOpen_cfg (p : SCANDEC_OPEN) (allocOk : Bool) (s : ScanState) :
    (ScanDecOpen (some p) allocOk s).cfg = some
      ({ p with
          dwOutLinePixCnt := p.dwInLinePixCnt % W32
          dwOutLineByte :=
            (if p.bLongBoundary then
              align4 (if p.nColorType &&& 0x400 ≠ 0 then p.dwInLinePixCnt % W32 * 3 % W32
                else if p.nColorType &&& 0x200 ≠ 0 then p.dwInLinePixCnt % W32
                else (p.dwInLinePixCnt % W32 + 7) % W32 / 8)
            else
              (if p.nColorType &&& 0x400 ≠ 0 then p.dwInLinePixCnt % W32 * 3 % W32
                else if p.nColorType &&& 0x200 ≠ 0 then p.dwInLinePixCnt % W32
                else (p.dwInLinePixCnt % W32 + 7) % W32 / 8))
          dwOutWriteMaxSize :=
            (if p.bLongBoundary then
              align4 (if p.nColorType &&& 0x400 ≠ 0 then p.dwInLinePixCnt % W32 * 3 % W32
                else if p.nColorType &&& 0x200 ≠ 0 then p.dwInLinePixCnt % W32
                else (p.dwInLinePixCnt % W32 + 7) % W32 / 8)
            else
              (if p.nColorType &&& 0x400 ≠ 0 then p.dwInLinePixCnt % W32 * 3 % W32
                else if p.nColorType &&& 0x200 ≠ 0 then p.dwInLinePixCnt % W32
                else (p.dwInLinePixCnt % W32 + 7) % W32 / 8)) * 16 % W32 }) := by
  simp only [ScanDecOpen]
  split_ifs <;> rfl

/-- C3 counterexample: the Monochrome1bit configuration with
`N = 2^32 − 1` is accepted by `ScanDecOpen` (returns TRUE), yet 32-bit
DWORD wrap-around in `(N + 7) / 8` makes the computed `dwOutLineByte` 0
instead of `⌈N/8⌉ = 536870912`. -/
theorem C3_open_geometry_counterexample :
    (ScanDecOpen (some { nColorType := 0x100, dwInLinePixCnt := 4294967295 })
        true initState).ok = true ∧
    ((ScanDecOpen (some { nColorType := 0x100, dwInLinePixCnt := 4294967295 })
        true initState).cfg.getD {}).dwOutLineByte = 0 ∧
    (4294967295 + 7) / 8 = 536870912 := by
  refine ⟨by decide, by decide, by decide⟩

/-- C3 amended: the claimed geometry (bytesPerLine = ⌈N/8⌉ / N / 3N by
mode, rounded up to the next multiple of 4 when the alignment flag is
set, hence divisible by 4 and ≥ the unaligned value, and
`dwOutWriteMaxSize = bytesPerLine·16`) holds for every configuration
accepted by `ScanDecOpen` provided `48·N + 48 < 2^32`, i.e. none of the
derived DWORD quantities overflows. -/
theorem C3_open_geometry_amended (p : SCANDEC_OPEN) (allocOk : Bool) (s : ScanState)
    (hov : 48 * p.dwInLinePixCnt + 48 < W32)
    (hok : (ScanDecOpen (some p) allocOk s).ok = true) :
    ∃ q, (ScanDecOpen (some p) allocOk s).cfg = some q ∧
      q.dwOutLineByte =
        (if p.bLongBoundary then
          ((if p.nColorType &&& 0x400 ≠ 0 then p.dwInLinePixCnt * 3
            else if p.nColorType &&& 0x200 ≠ 0 then p.dwInLinePixCnt
            else (p.dwInLinePixCnt + 7) / 8) + 3) / 4 * 4
        else
          (if p.nColorType &&& 0x400 ≠ 0 then p.dwInLinePixCnt * 3
            else if p.nColorType &&& 0x200 ≠ 0 then p.dwInLinePixCnt
            else (p.dwInLinePixCnt + 7) / 8)) ∧
      (p.bLongBoundary = true → q.dwOutLineByte % 4 = 0 ∧
        (if p.nColorType &&& 0x400 ≠ 0 then p.dwInLinePixCnt * 3
          else if p.nColorType &&& 0x200 ≠ 0 then p.dwInLinePixCnt
          else (p.dwInLinePixCnt + 7) / 8) ≤ q.dwOutLineByte) ∧
      q.dwOutWriteMaxSize = q.dwOutLineByte * 16 := by
  have hN : p.dwInLinePixCnt % W32 = p.dwInLinePixCnt :=
    Nat.mod_eq_of_lt (by unfold W32 at hov ⊢; omega)
  have h3 : p.dwInLinePixCnt * 3 % W32 = p.dwInLinePixCnt * 3 :=
    Nat.mod_eq_of_lt (by unfold W32 at hov ⊢; omega)
  have h7 : (p.dwInLinePixCnt + 7) % W32 = p.dwInLinePixCnt + 7 :=
    Nat.mod_eq_of_lt (by unfold W32 at hov ⊢; omega)
  refine ⟨_, scanDecOpen_cfg p allocOk s, ?_, ?_, ?_⟩ <;>
    dsimp only <;>
    simp only [hN, h3, h7] <;>
    generalize hB : (if p.nColorType &&& 0x400 ≠ 0 then p.dwInLinePixCnt * 3
      else if p.nColorType &&& 0x200 ≠ 0 then p.dwInLinePixCnt
      else (p.dwInLinePixCnt + 7) / 8) = base
  case _ =>
    -- dwOutLineByte has the claimed closed form
    have hbase : base ≤ p.dwInLinePixCnt * 3 := by
      rw [← hB]; split_ifs <;> omega
    have halign : align4 base = (base + 3) / 4 * 4 := by
      unfold align4
      rw [Nat.mod_eq_of_lt (by unfold W32 at hov ⊢; omega)]
      omega
    by_cases hb : p.bLongBoundary = true <;> simp [hb, halign]
  case _ =>
    -- alignment: divisible by 4 and ≥ the unaligned value
    intro hb
    have hbase : base ≤ p.dwInLinePixCnt * 3 := by
      rw [← hB]; split_ifs <;> omega
    have halign : align4 base = (base + 3) / 4 * 4 := by
      unfold align4
      rw [Nat.mod_eq_of_lt (by unfold W32 at hov ⊢; omega)]
      omega
    rw [hb]
    simp only [if_true, halign]
    omega
  case _ =>
    -- dwOutWriteMaxSize = dwOutLineByte * 16 (no overflow)
    have hbase : base ≤ p.dwInLinePixCnt * 3 := by
      rw [← hB]; split_ifs <;> omega
    have halign : align4 base ≤ base + 3 := by
      unfold align4
      rw [Nat.mod_eq_of_lt (by unfold W32 at hov ⊢; omega)]
      omega
    by_cases hb : p.bLongBoundary = true <;>
      simp only [hb, if_true, if_false, Bool.false_eq_true] <;>
      exact Nat.mod_eq_of_lt (by unfold W32 at hov ⊢; omega)

/-- Witness for the amended C3 at the RGB24bit, N = 2, aligned
configuration: bytesPerLine = 8, maxMultiLineBufferBytes = 128. -/
theorem C3_open_geometry_amended_witness :
    ∃ q, (ScanDecOpen
        (some { nColorType := 0x400, dwInLinePixCnt := 2, bLongBoundary := true })
        true initState).cfg = some q ∧
      q.dwOutLineByte = 8 ∧ q.dwOutWriteMaxSize = 128 := by
  obtain ⟨q, hq, h1, _, h3⟩ := C3_open_geometry_amended
    { nColorType := 0x400, dwInLinePixCnt := 2, bLongBoundary := true } true initState
    (by decide) (by decide)
  refine ⟨q, hq, ?_, ?_⟩
  · rw [h1]; decide
  · rw [h3, h1]; decide

/-- C7 counterexample: `ScanDecOpen` accepts the Monochrome1bit
configuration with `dwInLinePixCnt = 0` — it returns TRUE, contradicting
the claim that N == 0 is rejected. -/
theorem C7_open_zero_counterexample :
    (ScanDecOpen (some { nColorType := 0x100, dwInLinePixCnt := 0 }) true initState).ok
      = true := by decide

/-- C7 amended: `ScanDecOpen` performs no geometry validation: with
`N = 0` (and the plane allocations succeeding) it reports success and a
degenerate layout with `dwOutLineByte = 0`; the degenerate case is only
rejected later, by `ScanDecWrite`'s `outLine == 0` guard. -/
theorem C7_open_zero_amended (p : SCANDEC_OPEN) (s : ScanState)
    (hz : p.dwInLinePixCnt = 0) :
    (ScanDecOpen (some p) true s).ok = true ∧
    ∃ q, (ScanDecOpen (some p) true s).cfg = some q ∧ q.dwOutLineByte = 0 := by
  constructor
  · simp only [ScanDecOpen]
    split_ifs <;> rfl
  · refine ⟨_, scanDecOpen_cfg p true s, ?_⟩
    dsimp only
    rw [hz]
    split_ifs <;> decide

/-- Witness for the amended C7 at the Gray8bit N = 0 configuration. -/
theorem C7_open_zero_amended_witness :
    (ScanDecOpen (some { nColorType := 0x200, dwInLinePixCnt := 0 }) true initState).ok
        = true ∧
    ∃ q, (ScanDecOpen (some { nColorType := 0x200, dwInLinePixCnt := 0 }) true
        initState).cfg = some q ∧ q.dwOutLineByte = 0 :=
  C7_open_zero_amended { nColorType := 0x200, dwInLinePixCnt := 0 } initState (by decide)

/-- C10: with non-NULL record and buffers, if the negotiated
`dwOutLineByte` is 0 or exceeds the declared destination capacity,
`ScanDecWrite` returns 0 bytes with status 0 (Buffered, not Fault) and
leaves the destination contents and the whole session state unchanged. -/
theorem C10_write_degenerate_layout (s : ScanState) (w : SCANDEC_WRITE)
    (mem dest : List Nat) (hm : w.pLineData = some mem) (hd : w.pWriteBuff = some dest)
    (hcond : s.g_open.dwOutLineByte = 0 ∨ s.g_open.dwOutLineByte > w.dwWriteBuffSize) :
    ScanDecWrite (some w) s = { state := s, dest := some dest, ret := 0, status := 0 } := by
  simp only [ScanDecWrite, hm, hd]
  rw [if_pos hcond]

/-- Witness for C10: an unopened session (`dwOutLineByte = 0`) with a
well-formed record. -/
theorem C10_write_degenerate_layout_witness :
    ScanDecWrite (some { nInDataComp := 2, nInDataKind := 0, pLineData := some [5], dwLineDataSize := 1, pWriteBuff := some [9], dwWriteBuffSize := 1 }) initState
      = { state := initState, dest := some [9], ret := 0, status := 0 } :=
  C10_write_degenerate_layout initState _ [5] [9] rfl rfl (Or.inl rfl)

/-- The RGB branch only ever reports status 0 (buffered) or 1 (emitted). -/
theorem scanDecWrite_rgb_status (s : ScanState) (w : SCANDEC_WRITE)
    (mem dest r g b : List Nat) (o : Nat) :
    (ScanDecWrite_rgb s w mem dest r g b o).status = 0 ∨
    (ScanDecWrite_rgb s w mem dest r g b o).status = 1 := by
  unfold ScanDecWrite_rgb
  dsimp only
  split
  · left; rfl
  · right; rfl

/-- Every `ScanDecWrite` call with non-NULL record and buffers reports
status 0 or 1, never −1. -/
theorem scanDecWrite_status_nonneg (s : ScanState) (w : SCANDEC_WRITE)
    (mem dest : List Nat) (hm : w.pLineData = some mem) (hd : w.pWriteBuff = some dest) :
    (ScanDecWrite (some w) s).status = 0 ∨ (ScanDecWrite (some w) s).status = 1 := by
  simp only [ScanDecWrite, hm, hd]
  by_cases hg : s.g_open.dwOutLineByte = 0 ∨ s.g_open.dwOutLineByte > w.dwWriteBuffSize
  · rw [if_pos hg]; left; rfl
  · rw [if_neg hg]
    by_cases hc : s.g_bpp = 3 ∧ s.g_red_plane.isSome = true ∧ s.g_green_plane.isSome = true
        ∧ s.g_blue_plane.isSome = true ∧ 2 ≤ w.nInDataKind ∧ w.nInDataKind ≤ 4
    · rw [if_pos hc]; exact scanDecWrite_rgb_status ..
    · rw [if_neg hc]; right; rfl

/-- C8: `ScanDecWrite` reports Fault (status −1) iff a structural input
reference is absent — the record, its input buffer, or the destination
buffer is NULL — and a Fault always comes with 0 bytes; with all three
present, every input (any length, any compression code) yields status
0 or 1, never a Fault. -/
theorem C8_write_fault_iff_null (wIn : Option SCANDEC_WRITE) (s : ScanState) :
    ((ScanDecWrite wIn s).status = -1 ↔
      wIn = none ∨ ∃ w, wIn = some w ∧ (w.pLineData = none ∨ w.pWriteBuff = none)) ∧
    ((ScanDecWrite wIn s).status = -1 → (ScanDecWrite wIn s).ret = 0) := by
  match wIn with
  | none =>
    constructor
    · constructor
      · intro _; exact Or.inl rfl
      · intro _; rfl
    · intro _; rfl
  | some w =>
    cases hp : w.pLineData with
    | none =>
      constructor
      · constructor
        · intro _; exact Or.inr ⟨w, rfl, Or.inl hp⟩
        · intro _; simp [ScanDecWrite, hp]
      · intro _; simp [ScanDecWrite, hp]
    | some mem =>
      cases hb : w.pWriteBuff with
      | none =>
        constructor
        · constructor
          · intro _; exact Or.inr ⟨w, rfl, Or.inr hb⟩
          · intro _; simp [ScanDecWrite, hp, hb]
        · intro _; simp [ScanDecWrite, hp, hb]
      | some dest =>
        have hstat := scanDecWrite_status_nonneg s w mem dest hp hb
        constructor
        · constructor
          · intro h
            rcases hstat with h' | h' <;> rw [h'] at h <;> exact absurd h (by decide)
          · rintro (h | ⟨w', hw', hnull⟩)
            · cases h
            · injection hw' with hww
              subst hww
              rcases hnull with h | h
              · rw [hp] at h; cases h
              · rw [hb] at h; cases h
        · intro h
          rcases hstat with h' | h' <;> rw [h'] at h <;> exact absurd h (by decide)

/-- Witness for C8 at a NULL record pointer: Fault with 0 bytes. -/
theorem C8_write_fault_iff_null_witness :
    (ScanDecWrite none initState).status = -1 ∧ (ScanDecWrite none initState).ret = 0 :=
  ⟨(C8_write_fault_iff_null none initState).1.mpr (Or.inl rfl),
   (C8_write_fault_iff_null none initState).2
     ((C8_write_fault_iff_null none initState).1.mpr (Or.inl rfl))⟩

theorem rgb_select_state_red (s : ScanState) (k : Int) (r g b : List Nat) :
    (rgb_select_state s k r g b).g_have_red = (if k = 2 then true else s.g_have_red) := by
  unfold rgb_select_state
  split_ifs <;> rfl

theorem rgb_select_state_green (s : ScanState) (k : Int) (r g b : List Nat) :
    (rgb_select_state s k r g b).g_have_green = (if k = 3 then true else s.g_have_green) := by
  unfold rgb_select_state
  split_ifs <;> first | rfl | omega

/-- Reduction of `ScanDecWrite` to the RGB branch when in RGB mode with
allocated planes and a plane-tagged record. -/
theorem scanDecWrite_eq_rgb (s : ScanState) (w : SCANDEC_WRITE) (mem dest : List Nat)
    (hm : w.pLineData = some mem) (hd : w.pWriteBuff = some dest)
    (hg0 : ¬(s.g_open.dwOutLineByte = 0 ∨ s.g_open.dwOutLineByte > w.dwWriteBuffSize))
    (hbpp : s.g_bpp = 3) (hr : s.g_red_plane.isSome = true)
    (hgr : s.g_green_plane.isSome = true) (hb : s.g_blue_plane.isSome = true)
    (hk2 : 2 ≤ w.nInDataKind) (hk4 : w.nInDataKind ≤ 4) :
    ScanDecWrite (some w) s =
      ScanDecWrite_rgb s w mem dest (s.g_red_plane.getD []) (s.g_green_plane.getD [])
        (s.g_blue_plane.getD []) s.g_open.dwOutLineByte := by
  simp only [ScanDecWrite, hm, hd]
  rw [if_neg hg0, if_pos ⟨hbpp, hr, hgr, hb, hk2, hk4⟩]

/-- The RGB branch as a single `if`. -/
theorem scanDecWrite_rgb_eq (s : ScanState) (w : SCANDEC_WRITE)
    (mem dest r g b : List Nat) (o : Nat) :
    ScanDecWrite_rgb s w mem dest r g b o =
      (if w.nInDataKind ≠ 4 ∨
          (rgb_select_state s w.nInDataKind
            (rgb_decode_plane r s.g_plane_pixels w.nInDataComp mem w.dwLineDataSize)
            (rgb_decode_plane g s.g_plane_pixels w.nInDataComp mem w.dwLineDataSize)
            (rgb_decode_plane b s.g_plane_pixels w.nInDataComp mem w.dwLineDataSize)).g_have_red
              = false ∨
          (rgb_select_state s w.nInDataKind
            (rgb_decode_plane r s.g_plane_pixels w.nInDataComp mem w.dwLineDataSize)
            (rgb_decode_plane g s.g_plane_pixels w.nInDataComp mem w.dwLineDataSize)
            (rgb_decode_plane b s.g_plane_pixels w.nInDataComp mem w.dwLineDataSize)).g_have_green
              = false then
        { state := rgb_select_state s w.nInDataKind
            (rgb_decode_plane r s.g_plane_pixels w.nInDataComp mem w.dwLineDataSize)
            (rgb_decode_plane g s.g_plane_pixels w.nInDataComp mem w.dwLineDataSize)
            (rgb_decode_plane b s.g_plane_pixels w.nInDataComp mem w.dwLineDataSize),
          dest := some dest, ret := 0, status := 0 }
      else
        { state := { rgb_select_state s w.nInDataKind
            (rgb_decode_plane r s.g_plane_pixels w.nInDataComp mem w.dwLineDataSize)
            (rgb_decode_plane g s.g_plane_pixels w.nInDataComp mem w.dwLineDataSize)
            (rgb_decode_plane b s.g_plane_pixels w.nInDataComp mem w.dwLineDataSize)
              with g_have_red := false, g_have_green := false },
          dest := some (overlayAt (overlayAt dest 0 (List.replicate o 0)) 0
            (interleave3 r g
              (rgb_decode_plane b s.g_plane_pixels w.nInDataComp mem w.dwLineDataSize)
              (min s.g_plane_pixels (o / 3)))),
          ret := o, status := 1 }) := by
  unfold ScanDecWrite_rgb
  rfl

/-- C4: in RGB mode (bpp 3, all plane buffers allocated) with non-NULL
record and buffers, for plane-tagged records: a Red- or Green-tagged
record reports Buffered (status 0, 0 bytes); a Blue-tagged record with
Red or Green missing reports Buffered (0, 0) — silently dropping the
partial row; status 1 is reported only when the record is Blue-tagged
and both Red and Green were already filled, and afterwards both flags
are cleared; and `ScanDecClose` always succeeds. -/
theorem C4_rgb_gating (s : ScanState) (w : SCANDEC_WRITE) (mem dest : List Nat)
    (hm : w.pLineData = some mem) (hd : w.pWriteBuff = some dest)
    (hbpp : s.g_bpp = 3) (hr : s.g_red_plane.isSome = true)
    (hgr : s.g_green_plane.isSome = true) (hbl : s.g_blue_plane.isSome = true) :
    ((w.nInDataKind = 2 ∨ w.nInDataKind = 3) →
      (ScanDecWrite (some w) s).status = 0 ∧ (ScanDecWrite (some w) s).ret = 0) ∧
    (w.nInDataKind = 4 → (s.g_have_red = false ∨ s.g_have_green = false) →
      (ScanDecWrite (some w) s).status = 0 ∧ (ScanDecWrite (some w) s).ret = 0) ∧
    (2 ≤ w.nInDataKind → w.nInDataKind ≤ 4 →
      (ScanDecWrite (some w) s).status = 1 →
      w.nInDataKind = 4 ∧ s.g_have_red = true ∧ s.g_have_green = true ∧
      (ScanDecWrite (some w) s).state.g_have_red = false ∧
      (ScanDecWrite (some w) s).state.g_have_green = false) ∧
    (∀ s', (ScanDecClose s').2 = true) := by
  refine ⟨?_, ?_, ?_, fun _ => rfl⟩
  · intro hk
    by_cases hg0 : s.g_open.dwOutLineByte = 0 ∨ s.g_open.dwOutLineByte > w.dwWriteBuffSize
    · simp only [ScanDecWrite, hm, hd]
      rw [if_pos hg0]
      exact ⟨rfl, rfl⟩
    · rw [scanDecWrite_eq_rgb s w mem dest hm hd hg0 hbpp hr hgr hbl (by omega) (by omega),
        scanDecWrite_rgb_eq]
      rw [if_pos (Or.inl (by omega))]
      exact ⟨rfl, rfl⟩
  · intro hk4 hmiss
    by_cases hg0 : s.g_open.dwOutLineByte = 0 ∨ s.g_open.dwOutLineByte > w.dwWriteBuffSize
    · simp only [ScanDecWrite, hm, hd]
      rw [if_pos hg0]
      exact ⟨rfl, rfl⟩
    · rw [scanDecWrite_eq_rgb s w mem dest hm hd hg0 hbpp hr hgr hbl (by omega) (by omega),
        scanDecWrite_rgb_eq]
      split_ifs with hcnd
      · exact ⟨rfl, rfl⟩
      · exfalso
        push_neg at hcnd
        obtain ⟨h4, hred, hgrn⟩ := hcnd
        rw [rgb_select_state_red, if_neg (by omega : ¬ w.nInDataKind = 2)] at hred
        rw [rgb_select_state_green, if_neg (by omega : ¬ w.nInDataKind = 3)] at hgrn
        rcases hmiss with h | h
        · exact hred h
        · exact hgrn h
  · intro hk2 hk4 hst
    by_cases hg0 : s.g_open.dwOutLineByte = 0 ∨ s.g_open.dwOutLineByte > w.dwWriteBuffSize
    · simp only [ScanDecWrite, hm, hd] at hst
      rw [if_pos hg0] at hst
      simp at hst
    · rw [scanDecWrite_eq_rgb s w mem dest hm hd hg0 hbpp hr hgr hbl hk2 hk4,
        scanDecWrite_rgb_eq] at hst ⊢
      split_ifs at hst ⊢ with hcnd
      · simp at hst
      · push_neg at hcnd
        obtain ⟨hk, hred, hgrn⟩ := hcnd
        rw [rgb_select_state_red, if_neg (by omega : ¬ w.nInDataKind = 2)] at hred
        rw [rgb_select_state_green, if_neg (by omega : ¬ w.nInDataKind = 3)] at hgrn
        refine ⟨hk, ?_, ?_, rfl, rfl⟩
        · revert hred; cases s.g_have_red <;> simp
        · revert hgrn; cases s.g_have_green <;> simp

/-- Witness for C4: a Red-tagged RawCopy record on a freshly opened
RGB24bit N = 2 session reports Buffered with 0 bytes. -/
theorem C4_rgb_gating_witness :
    (ScanDecWrite (some { nInDataComp := 2, nInDataKind := 2, pLineData := some [1, 2], dwLineDataSize := 2, pWriteBuff := some [9, 9, 9, 9, 9, 9], dwWriteBuffSize := 6 })
      (ScanDecOpen (some { nColorType := 0x400, dwInLinePixCnt := 2 }) true initState).state).status = 0 ∧
    (ScanDecWrite (some { nInDataComp := 2, nInDataKind := 2, pLineData := some [1, 2], dwLineDataSize := 2, pWriteBuff := some [9, 9, 9, 9, 9, 9], dwWriteBuffSize := 6 })
      (ScanDecOpen (some { nColorType := 0x400, dwInLinePixCnt := 2 }) true initState).state).ret = 0 :=
  (C4_rgb_gating
    (ScanDecOpen (some { nColorType := 0x400, dwInLinePixCnt := 2 }) true initState).state
    { nInDataComp := 2, nInDataKind := 2, pLineData := some [1, 2], dwLineDataSize := 2, pWriteBuff := some [9, 9, 9, 9, 9, 9], dwWriteBuffSize := 6 }
    [1, 2] [9, 9, 9, 9, 9, 9] rfl rfl (by decide) (by decide) (by decide) (by decide)).1
    (Or.inl rfl)

theorem getD_replicate (n a j : Nat) :
    (List.replicate n a).getD j 0 = if j < n then a else 0 := by
  by_cases h : j < n
  · simp [List.getD_eq_getElem?_getD, List.getElem?_replicate, h]
  · rw [List.getD_eq_default, if_neg h]
    simpa using not_lt.mp h

/-- C5 counterexample: RGB24bit, N = 2 with the alignment flag set
(`bytesPerLine = 8`).  After Red = [1,2] and Green = [3,4], the Blue
submission `[5,6]` reports Emitted but returns `bytesPerLine = 8` bytes,
not `3 · min(N, destinationCapacity/3) = 6` as the claim states. -/
theorem C5_rgb_interleave_counterexample :
    (ScanDecWrite
      (some { nInDataComp := 2, nInDataKind := 4, pLineData := some [5, 6], dwLineDataSize := 2, pWriteBuff := some [9, 9, 9, 9, 9, 9, 9, 9], dwWriteBuffSize := 8 })
      (ScanDecWrite
        (some { nInDataComp := 2, nInDataKind := 3, pLineData := some [3, 4], dwLineDataSize := 2, pWriteBuff := some [9, 9, 9, 9, 9, 9, 9, 9], dwWriteBuffSize := 8 })
        (ScanDecWrite
          (some { nInDataComp := 2, nInDataKind := 2, pLineData := some [1, 2], dwLineDataSize := 2, pWriteBuff := some [9, 9, 9, 9, 9, 9, 9, 9], dwWriteBuffSize := 8 })
          (ScanDecOpen (some { nColorType := 0x400, dwInLinePixCnt := 2, bLongBoundary := true }) true initState).state).state).state).status = 1 ∧
    (ScanDecWrite
      (some { nInDataComp := 2, nInDataKind := 4, pLineData := some [5, 6], dwLineDataSize := 2, pWriteBuff := some [9, 9, 9, 9, 9, 9, 9, 9], dwWriteBuffSize := 8 })
      (ScanDecWrite
        (some { nInDataComp := 2, nInDataKind := 3, pLineData := some [3, 4], dwLineDataSize := 2, pWriteBuff := some [9, 9, 9, 9, 9, 9, 9, 9], dwWriteBuffSize := 8 })
        (ScanDecWrite
          (some { nInDataComp := 2, nInDataKind := 2, pLineData := some [1, 2], dwLineDataSize := 2, pWriteBuff := some [9, 9, 9, 9, 9, 9, 9, 9], dwWriteBuffSize := 8 })
          (ScanDecOpen (some { nColorType := 0x400, dwInLinePixCnt := 2, bLongBoundary := true }) true initState).state).state).state).ret = 8 ∧
    3 * min 2 (8 / 3) = 6 := by
  refine ⟨by decide, by decide, by decide⟩

/-- C5 amended: in RGB mode, when a Blue-tagged record arrives with Red
and Green already filled, `ScanDecWrite` interleaves `R[i],G[i],B[i]`
into the destination for exactly `i < min(g_plane_pixels,
bytesPerLine/3)` pixels, zero-fills the rest of the `bytesPerLine`
region, touches nothing beyond it, clears both flags and reports Emitted
— but the returned byte count is the negotiated `bytesPerLine`
(`dwOutLineByte`), which equals 3·pixelcount only when no alignment
rounding was applied; `3·pixelcount` never exceeds the declared
destination capacity. -/
theorem C5_rgb_interleave_amended (s : ScanState) (w : SCANDEC_WRITE)
    (mem dest red green blue : List Nat)
    (hm : w.pLineData = some mem) (hd : w.pWriteBuff = some dest)
    (hbpp : s.g_bpp = 3)
    (hred : s.g_red_plane = some red) (hgrn : s.g_green_plane = some green)
    (hblu : s.g_blue_plane = some blue)
    (hfr : s.g_have_red = true) (hfg : s.g_have_green = true)
    (hk : w.nInDataKind = 4)
    (hg0 : ¬(s.g_open.dwOutLineByte = 0 ∨ s.g_open.dwOutLineByte > w.dwWriteBuffSize))
    (hlen : dest.length = w.dwWriteBuffSize) :
    (ScanDecWrite (some w) s).status = 1 ∧
    (ScanDecWrite (some w) s).ret = s.g_open.dwOutLineByte ∧
    (ScanDecWrite (some w) s).state.g_have_red = false ∧
    (ScanDecWrite (some w) s).state.g_have_green = false ∧
    3 * min s.g_plane_pixels (s.g_open.dwOutLineByte / 3) ≤ w.dwWriteBuffSize ∧
    ∃ out, (ScanDecWrite (some w) s).dest = some out ∧ out.length = dest.length ∧
      (∀ i, i < min s.g_plane_pixels (s.g_open.dwOutLineByte / 3) →
        out.getD (3 * i) 0 = red.getD i 0 ∧
        out.getD (3 * i + 1) 0 = green.getD i 0 ∧
        out.getD (3 * i + 2) 0 =
          (rgb_decode_plane blue s.g_plane_pixels w.nInDataComp mem
            w.dwLineDataSize).getD i 0) ∧
      (∀ j, 3 * min s.g_plane_pixels (s.g_open.dwOutLineByte / 3) ≤ j →
        j < s.g_open.dwOutLineByte → out.getD j 0 = 0) ∧
      (∀ j, s.g_open.dwOutLineByte ≤ j → j < dest.length →
        out.getD j 0 = dest.getD j 0) := by
  have hr : s.g_red_plane.isSome = true := by rw [hred]; rfl
  have hgr' : s.g_green_plane.isSome = true := by rw [hgrn]; rfl
  have hbl : s.g_blue_plane.isSome = true := by rw [hblu]; rfl
  have hgetr : s.g_red_plane.getD [] = red := by rw [hred]; rfl
  have hgetg : s.g_green_plane.getD [] = green := by rw [hgrn]; rfl
  have hgetb : s.g_blue_plane.getD [] = blue := by rw [hblu]; rfl
  have houtle : s.g_open.dwOutLineByte ≤ w.dwWriteBuffSize := by
    push_neg at hg0; omega
  have h3n : 3 * min s.g_plane_pixels (s.g_open.dwOutLineByte / 3)
      ≤ s.g_open.dwOutLineByte := by
    have := Nat.min_le_right s.g_plane_pixels (s.g_open.dwOutLineByte / 3)
    omega
  rw [scanDecWrite_eq_rgb s w mem dest hm hd hg0 hbpp hr hgr' hbl (by omega) (by omega),
    scanDecWrite_rgb_eq, hgetr, hgetg, hgetb]
  split_ifs with hcnd
  · exfalso
    rcases hcnd with h | h | h
    · exact h hk
    · rw [rgb_select_state_red, if_neg (by omega : ¬ w.nInDataKind = 2), hfr] at h
      cases h
    · rw [rgb_select_state_green, if_neg (by omega : ¬ w.nInDataKind = 3), hfg] at h
      cases h
  · refine ⟨rfl, rfl, rfl, rfl, by omega, ?_⟩
    refine ⟨_, rfl, ?_, ?_, ?_, ?_⟩
    · rw [length_overlayAt, length_overlayAt]
    · intro i hi
      have hj2 : 3 * i + 2 < s.g_open.dwOutLineByte := by omega
      obtain ⟨e1, e2, e3⟩ := getD_interleave3 red green
        (rgb_decode_plane blue s.g_plane_pixels w.nInDataComp mem w.dwLineDataSize)
        (min s.g_plane_pixels (s.g_open.dwOutLineByte / 3)) i hi
      refine ⟨?_, ?_, ?_⟩
      · rw [getD_overlayAt _ _ _ _ (by rw [length_overlayAt, hlen]; omega),
          if_pos ⟨Nat.zero_le _, by rw [length_interleave3]; omega⟩,
          Nat.sub_zero, e1]
      · rw [getD_overlayAt _ _ _ _ (by rw [length_overlayAt, hlen]; omega),
          if_pos ⟨Nat.zero_le _, by rw [length_interleave3]; omega⟩,
          Nat.sub_zero, e2]
      · rw [getD_overlayAt _ _ _ _ (by rw [length_overlayAt, hlen]; omega),
          if_pos ⟨Nat.zero_le _, by rw [length_interleave3]; omega⟩,
          Nat.sub_zero, e3]
    · intro j hj1 hj2
      rw [getD_overlayAt _ _ _ _ (by rw [length_overlayAt, hlen]; omega),
        if_neg (by rw [length_interleave3]; omega),
        getD_overlayAt _ _ _ _ (by rw [hlen]; omega),
        if_pos ⟨Nat.zero_le _, by rw [List.length_replicate]; omega⟩,
        Nat.sub_zero, getD_replicate, if_pos hj2]
    · intro j hj1 hj2
      rw [getD_overlayAt _ _ _ _ (by rw [length_overlayAt]; omega),
        if_neg (by rw [length_interleave3]; omega),
        getD_overlayAt _ _ _ _ (by omega),
        if_neg (by rw [List.length_replicate]; omega)]

/-- Witness for the amended C5: Scenario E's Blue submission (N = 2,
unaligned, `bytesPerLine = 6`) on a state with Red = [1,2], Green = [3,4]
filled reports Emitted with 6 bytes and clears both flags. -/
theorem C5_rgb_interleave_amended_witness :
    (ScanDecWrite
      (some { nInDataComp := 2, nInDataKind := 4, pLineData := some [5, 6], dwLineDataSize := 2, pWriteBuff := some [9, 9, 9, 9, 9, 9], dwWriteBuffSize := 6 })
      { g_open := { dwOutLineByte := 6 }, g_bpp := 3, g_red_plane := some [1, 2], g_green_plane := some [3, 4], g_blue_plane := some [0, 0], g_plane_pixels := 2, g_have_red := true, g_have_green := true }).status = 1 ∧
    (ScanDecWrite
      (some { nInDataComp := 2, nInDataKind := 4, pLineData := some [5, 6], dwLineDataSize := 2, pWriteBuff := some [9, 9, 9, 9, 9, 9], dwWriteBuffSize := 6 })
      { g_open := { dwOutLineByte := 6 }, g_bpp := 3, g_red_plane := some [1, 2], g_green_plane := some [3, 4], g_blue_plane := some [0, 0], g_plane_pixels := 2, g_have_red := true, g_have_green := true }).ret = 6 ∧
    (ScanDecWrite
      (some { nInDataComp := 2, nInDataKind := 4, pLineData := some [5, 6], dwLineDataSize := 2, pWriteBuff := some [9, 9, 9, 9, 9, 9], dwWriteBuffSize := 6 })
      { g_open := { dwOutLineByte := 6 }, g_bpp := 3, g_red_plane := some [1, 2], g_green_plane := some [3, 4], g_blue_plane := some [0, 0], g_plane_pixels := 2, g_have_red := true, g_have_green := true }).state.g_have_red = false := by
  have h := C5_rgb_interleave_amended
    { g_open := { dwOutLineByte := 6 }, g_bpp := 3, g_red_plane := some [1, 2], g_green_plane := some [3, 4], g_blue_plane := some [0, 0], g_plane_pixels := 2, g_have_red := true, g_have_green := true }
    { nInDataComp := 2, nInDataKind := 4, pLineData := some [5, 6], dwLineDataSize := 2, pWriteBuff := some [9, 9, 9, 9, 9, 9], dwWriteBuffSize := 6 }
    [5, 6] [9, 9, 9, 9, 9, 9] [1, 2] [3, 4] [0, 0]
    rfl rfl rfl rfl rfl rfl rfl rfl rfl (by decide) rfl
  exact ⟨h.1, h.2.1, h.2.2.1⟩

/-- C6: code bug.  The monochrome RawCopy path calls
`gray8_to_1bit(w->pLineData, pixelsPerLine, …)`, reading `pixelsPerLine`
input bytes regardless of the record's declared `dwLineDataSize`: two
records with identical declared content (`dwLineDataSize = 0`) but
different memory beyond the declared region produce different outputs,
so the path reads past the declared input length. -/
theorem C6_mono_rawcopy_reads_past_declared_length :
    List.take 0 ([0, 0, 0, 0, 0, 0, 0, 0] : List Nat)
        = List.take 0 ([200, 200, 200, 200, 200, 200, 200, 200] : List Nat) ∧
    (ScanDecWrite
      (some { nInDataComp := 2, nInDataKind := 0, pLineData := some [0, 0, 0, 0, 0, 0, 0, 0], dwLineDataSize := 0, pWriteBuff := some [7], dwWriteBuffSize := 1 })
      (ScanDecOpen (some { nColorType := 0x100, dwInLinePixCnt := 8 }) true initState).state).dest
        = some [0] ∧
    (ScanDecWrite
      (some { nInDataComp := 2, nInDataKind := 0, pLineData := some [200, 200, 200, 200, 200, 200, 200, 200], dwLineDataSize := 0, pWriteBuff := some [7], dwWriteBuffSize := 1 })
      (ScanDecOpen (some { nColorType := 0x100, dwInLinePixCnt := 8 }) true initState).state).dest
        = some [255] ∧
    ([0] : List Nat) ≠ [255] := by
  refine ⟨by decide, by decide, by decide, by decide⟩

/-- In the grayscale path with byte-per-sample output (`bpp ≠ 0`), an
unknown compression code decodes exactly like `SCIDC_NONCOMP`. -/
theorem gray_decode_line_unknown_eq_raw (dest : List Nat) (o bpp p : Nat) (c : Int)
    (mem : List Nat) (size : Nat) (hbpp : bpp ≠ 0)
    (hc1 : c ≠ 1) (hc2 : c ≠ 2) (hc3 : c ≠ 3) :
    gray_decode_line dest o bpp p c mem size = gray_decode_line dest o bpp p 2 mem size := by
  unfold gray_decode_line
  rw [if_neg hc1, if_neg hc2, if_neg hc3,
    if_neg (show ¬(2 : Int) = 1 by decide), if_pos (show (2 : Int) = 2 from rfl),
    if_neg hbpp]

/-- In the RGB plane path, when the declared input covers the whole
plane, an unknown compression code decodes exactly like `SCIDC_NONCOMP`
(the tail zero-fill is then empty). -/
theorem rgb_decode_plane_unknown_eq_raw (buf : List Nat) (pp : Nat) (c : Int)
    (mem : List Nat) (size : Nat) (hsz : pp ≤ size)
    (hc1 : c ≠ 1) (hc2 : c ≠ 2) (hc3 : c ≠ 3) :
    rgb_decode_plane buf pp c mem size = rgb_decode_plane buf pp 2 mem size := by
  unfold rgb_decode_plane
  rw [if_neg hc1, if_neg hc2, if_neg hc3,
    if_neg (show ¬(2 : Int) = 1 by decide), if_pos (show (2 : Int) = 2 from rfl),
    Nat.min_eq_right hsz]
  rw [if_neg (lt_irrefl pp)]

/-- C9 counterexample: Monochrome1bit, N = 8.  A record with samples
`[200,0,…,0]` under an unknown compression code (99) is copied raw
(output byte 200 = 0xC8), while the same record as RawCopy is quantized
(output byte 0x80): the fallback does not reproduce RawCopy semantics. -/
theorem C9_unknown_comp_counterexample :
    (ScanDecWrite
      (some { nInDataComp := 99, nInDataKind := 0, pLineData := some [200, 0, 0, 0, 0, 0, 0, 0], dwLineDataSize := 8, pWriteBuff := some [7], dwWriteBuffSize := 1 })
      (ScanDecOpen (some { nColorType := 0x100, dwInLinePixCnt := 8 }) true initState).state).dest
        = some [200] ∧
    (ScanDecWrite
      (some { nInDataComp := 2, nInDataKind := 0, pLineData := some [200, 0, 0, 0, 0, 0, 0, 0], dwLineDataSize := 8, pWriteBuff := some [7], dwWriteBuffSize := 1 })
      (ScanDecOpen (some { nColorType := 0x100, dwInLinePixCnt := 8 }) true initState).state).dest
        = some [128] ∧
    (some [200] : Option (List Nat)) ≠ some [128] := by
  refine ⟨by decide, by decide, by decide⟩

/-- C9 amended: an unrecognized compression code is handled by a clamped
direct byte copy.  This coincides with RawCopy output and status in
Gray8bit mode for every record, and in RGB mode for plane-tagged records
whose declared length covers the whole plane; it differs in
Monochrome1bit mode (RawCopy quantizes; the fallback copies raw bytes)
and for short RGB records (RawCopy zero-fills the plane tail; the
fallback leaves stale bytes). -/
theorem C9_unknown_comp_amended (s : ScanState) (w : SCANDEC_WRITE) (c : Int)
    (hc1 : c ≠ 1) (hc2 : c ≠ 2) (hc3 : c ≠ 3) :
    (s.g_bpp = 1 →
      ScanDecWrite (some { w with nInDataComp := c }) s
        = ScanDecWrite (some { w with nInDataComp := 2 }) s) ∧
    (s.g_bpp = 3 → s.g_plane_pixels ≤ w.dwLineDataSize →
      ScanDecWrite (some { w with nInDataComp := c }) s
        = ScanDecWrite (some { w with nInDataComp := 2 }) s) := by
  constructor
  · intro hbpp
    cases hp : w.pLineData with
    | none => simp [ScanDecWrite, hp]
    | some mem =>
      cases hb : w.pWriteBuff with
      | none => simp [ScanDecWrite, hp, hb]
      | some dest =>
        simp only [ScanDecWrite, hp, hb]
        by_cases hg0 : s.g_open.dwOutLineByte = 0
            ∨ s.g_open.dwOutLineByte > w.dwWriteBuffSize
        · rw [if_pos hg0, if_pos hg0]
        · rw [if_neg hg0, if_neg hg0]
          have hcond : ¬(s.g_bpp = 3 ∧ s.g_red_plane.isSome = true
              ∧ s.g_green_plane.isSome = true ∧ s.g_blue_plane.isSome = true
              ∧ 2 ≤ w.nInDataKind ∧ w.nInDataKind ≤ 4) := by
            rintro ⟨h, -⟩
            omega
          rw [if_neg hcond, if_neg hcond, hbpp,
            gray_decode_line_unknown_eq_raw dest _ 1 _ c mem _ (by omega) hc1 hc2 hc3]
  · intro hbpp hsz
    cases hp : w.pLineData with
    | none => simp [ScanDecWrite, hp]
    | some mem =>
      cases hb : w.pWriteBuff with
      | none => simp [ScanDecWrite, hp, hb]
      | some dest =>
        simp only [ScanDecWrite, hp, hb]
        by_cases hg0 : s.g_open.dwOutLineByte = 0
            ∨ s.g_open.dwOutLineByte > w.dwWriteBuffSize
        · rw [if_pos hg0, if_pos hg0]
        · rw [if_neg hg0, if_neg hg0]
          by_cases hcond : s.g_bpp = 3 ∧ s.g_red_plane.isSome = true
              ∧ s.g_green_plane.isSome = true ∧ s.g_blue_plane.isSome = true
              ∧ 2 ≤ w.nInDataKind ∧ w.nInDataKind ≤ 4
          · rw [if_pos hcond, if_pos hcond, scanDecWrite_rgb_eq, scanDecWrite_rgb_eq]
            dsimp only
            rw [rgb_decode_plane_unknown_eq_raw (s.g_red_plane.getD [])
                s.g_plane_pixels c mem w.dwLineDataSize hsz hc1 hc2 hc3,
              rgb_decode_plane_unknown_eq_raw (s.g_green_plane.getD [])
                s.g_plane_pixels c mem w.dwLineDataSize hsz hc1 hc2 hc3,
              rgb_decode_plane_unknown_eq_raw (s.g_blue_plane.getD [])
                s.g_plane_pixels c mem w.dwLineDataSize hsz hc1 hc2 hc3]
          · rw [if_neg hcond, if_neg hcond, hbpp,
              gray_decode_line_unknown_eq_raw dest _ 3 _ c mem _ (by omega) hc1 hc2 hc3]

/-- Witness for the amended C9: Gray8bit N = 4, record [10,200,5,255];
code 99 and RawCopy give identical results. -/
theorem C9_unknown_comp_amended_witness :
    ScanDecWrite
      (some { nInDataComp := 99, nInDataKind := 0, pLineData := some [10, 200, 5, 255], dwLineDataSize := 4, pWriteBuff := some [9, 9, 9, 9], dwWriteBuffSize := 4 })
      (ScanDecOpen (some { nColorType := 0x200, dwInLinePixCnt := 4 }) true initState).state
    = ScanDecWrite
      (some { nInDataComp := 2, nInDataKind := 0, pLineData := some [10, 200, 5, 255], dwLineDataSize := 4, pWriteBuff := some [9, 9, 9, 9], dwWriteBuffSize := 4 })
      (ScanDecOpen (some { nColorType := 0x200, dwInLinePixCnt := 4 }) true initState).state :=
  (C9_unknown_comp_amended
    (ScanDecOpen (some { nColorType := 0x200, dwInLinePixCnt := 4 }) true initState).state
    { nInDataComp := 99, nInDataKind := 0, pLineData := some [10, 200, 5, 255], dwLineDataSize := 4, pWriteBuff := some [9, 9, 9, 9], dwWriteBuffSize := 4 }
    99 (by decide) (by decide) (by decide)).1 (by decide)
